import Mathlib

/-!
# Verification of the spaceflight-news core against its specification

This development gives a shallow embedding, in Lean, of the core of the
spaceflight-news repository: the query/transform utility functions
(`app/utils/article-utils.ts` and `app/utils/index.ts`), the API client's
request error normalisation (`app/services/spaceflight-api.ts`), and the
page data loader (`app/routes/_index.tsx`), together with theorems about
them.

JavaScript primitives that the source relies on (`String.prototype.trim`,
`toLowerCase`, `includes`, `replace`, `parseInt`, `Date` parsing of the
ISO-8601 subset used by the Spaceflight News API, `Math.min`,
`Math.floor` on a division, and `Array.prototype.sort`) are modelled
explicitly below.  `NaN`-producing computations are modelled with
`Option Int` (`none` standing for `NaN`), and every definition is
executable by the kernel so that concrete runs can be checked with
`decide`.
-/

namespace SpaceflightNews

/-! ## JavaScript string primitives -/

/-- Whitespace recognised by `String.prototype.trim` and by `parseInt`
(ASCII subset: space, tab, line feed, carriage return, vertical tab,
form feed; the Unicode space classes are not used by this repository's
data). -/
def jsWhitespaceChar (c : Char) : Bool :=
  c = ' ' || c = '\t' || c = '\n' || c = '\r' || c = '\x0b' || c = '\x0c'

/-- Lower-casing of a single character as `String.prototype.toLowerCase`
acts on ASCII letters (the only case mapping this repository's data
exercises). -/
def asciiLower (c : Char) : Char :=
  if 'A' ≤ c ∧ c ≤ 'Z' then Char.ofNat (c.toNat + 32) else c

/-- Model of `String.prototype.toLowerCase`. -/
def jsToLower (s : String) : String :=
  String.mk (s.data.map asciiLower)

/-- Model of `String.prototype.trim`: whitespace is removed from BOTH
ends of the string. -/
def jsTrim (s : String) : String :=
  String.mk (((s.data.dropWhile jsWhitespaceChar).reverse.dropWhile jsWhitespaceChar).reverse)

/-- Substring search on character lists: does `needle` occur contiguously
inside `hay`?  (Every string contains the empty string.) -/
def includesList (needle : List Char) : List Char → Bool
  | [] => needle.isEmpty
  | c :: t => needle.isPrefixOf (c :: t) || includesList needle t

/-- Model of `String.prototype.includes`. -/
def jsIncludes (hay needle : String) : Bool :=
  includesList needle.data hay.data

/-- Replace the FIRST occurrence of `pat` by `rep`, scanning left to
right; if `pat` does not occur the list is returned unchanged.  This is
what `String.prototype.replace` does when its pattern is a plain string:
it does NOT anchor the pattern at the start. -/
def replaceFirstList (pat rep : List Char) : List Char → List Char
  | [] => if pat.isEmpty then rep else []
  | c :: t =>
    if pat.isPrefixOf (c :: t) then rep ++ (c :: t).drop pat.length
    else c :: replaceFirstList pat rep t

/-- Model of `String.prototype.replace` with a plain-string pattern. -/
def jsReplaceFirst (s pat rep : String) : String :=
  String.mk (replaceFirstList pat.data rep.data s.data)

/-- Model of `String.prototype.slice(0, n)` for a non-negative bound
(the only way the source calls `slice`). -/
def jsSlice0 (s : String) (n : Nat) : String :=
  String.mk (s.data.take n)

/-! ## JavaScript number parsing (`parseInt`) -/

/-- Decimal digit test. -/
def decDigit (c : Char) : Bool := '0' ≤ c && c ≤ '9'

/-- Numeric value of a list of decimal digits. -/
def decValue (cs : List Char) : Nat :=
  cs.foldl (fun n c => n * 10 + (c.toNat - 48)) 0

/-- Value of a hexadecimal digit, if it is one. -/
def hexDigitVal (c : Char) : Option Nat :=
  if '0' ≤ c ∧ c ≤ '9' then some (c.toNat - 48)
  else if 'a' ≤ c ∧ c ≤ 'f' then some (c.toNat - 87)
  else if 'A' ≤ c ∧ c ≤ 'F' then some (c.toNat - 55)
  else none

/-- Numeric value of a list of hexadecimal digits. -/
def hexValue (cs : List Char) : Nat :=
  cs.foldl (fun n c => n * 16 + ((hexDigitVal c).getD 0)) 0

/-- Model of the global `parseInt(s)` with no radix argument: skip
leading whitespace, read an optional sign, then either a `0x`/`0X`
hexadecimal literal or the longest prefix of decimal digits, ignoring
any trailing characters; the result is `NaN` (here `none`) when no digit
is found. -/
def jsParseInt (s : String) : Option Int :=
  let body : List Char → Option Nat := fun cs =>
    match cs with
    | '0' :: 'x' :: t =>
      let ds := t.takeWhile (fun c => (hexDigitVal c).isSome)
      if ds.isEmpty then none else some (hexValue ds)
    | '0' :: 'X' :: t =>
      let ds := t.takeWhile (fun c => (hexDigitVal c).isSome)
      if ds.isEmpty then none else some (hexValue ds)
    | _ =>
      let ds := cs.takeWhile decDigit
      if ds.isEmpty then none else some (decValue ds)
  match s.data.dropWhile jsWhitespaceChar with
  | '-' :: t => (body t).map (fun n => -(n : Int))
  | '+' :: t => (body t).map (fun n => (n : Int))
  | cs => (body cs).map (fun n => (n : Int))

/-! ## JavaScript date parsing (`new Date(string).getTime()`)

The Spaceflight News API and this repository's fixtures always use the
ES "Date Time String Format" restricted to a full calendar date,
optionally followed by a UTC time of day (`YYYY-MM-DD` or
`YYYY-MM-DDTHH:MM[:SS[.sss]]Z`).  The model below parses exactly that
subset and yields the millisecond epoch timestamp; every other input —
in particular the garbage strings exercised by the repository's tests —
yields `NaN`, modelled as `none`.  (Date-times without the trailing `Z`
are interpreted by JavaScript in the host's local zone and are outside
the scope of this model; no input considered here uses them.) -/

/-- Split a character list at every occurrence of a separator character. -/
def splitOnChar (sep : Char) : List Char → List (List Char)
  | [] => [[]]
  | c :: t =>
    if c = sep then [] :: splitOnChar sep t
    else
      match splitOnChar sep t with
      | [] => [[c]]
      | h :: r => (c :: h) :: r

/-- Gregorian leap-year test. -/
def isLeapYear (y : Nat) : Bool :=
  (y % 4 == 0 && y % 100 != 0) || y % 400 == 0

/-- Number of days in a month of the Gregorian calendar. -/
def daysInMonth (y m : Nat) : Nat :=
  if m = 2 then (if isLeapYear y then 29 else 28)
  else if m = 4 ∨ m = 6 ∨ m = 9 ∨ m = 11 then 30
  else 31

/-- Days elapsed from the Unix epoch to year `y`, month `m`, day `d`
(proleptic Gregorian; the civil-from-days algorithm). -/
def daysFromCivil (y m d : Nat) : Int :=
  let yAdj : Int := (y : Int) - (if m ≤ 2 then 1 else 0)
  let era : Int := yAdj / 400
  let yoe : Int := yAdj - era * 400
  let doy : Int := (153 * ((m : Int) + (if 2 < m then -3 else 9)) + 2) / 5 + (d : Int) - 1
  let doe : Int := yoe * 365 + yoe / 4 - yoe / 100 + doy
  era * 146097 + doe - 719468

/-- Inverse of `daysFromCivil`: the calendar date of a day count. -/
def civilFromDays (z : Int) : Int × Nat × Nat :=
  let z' := z + 719468
  let era := z' / 146097
  let doe := z' - era * 146097
  let yoe := (doe - doe / 1460 + doe / 36524 - doe / 146096) / 365
  let y := yoe + era * 400
  let doy := doe - (365 * yoe + yoe / 4 - yoe / 100)
  let mp := (5 * doy + 2) / 153
  let d := doy - (153 * mp + 2) / 5 + 1
  let m := if mp < 10 then mp + 3 else mp - 9
  (y + (if m ≤ 2 then 1 else 0), m.toNat, d.toNat)

/-- Read a fixed-width decimal field. -/
def fixedNat (len : Nat) (cs : List Char) : Option Nat :=
  if cs.length = len ∧ cs.all decDigit then some (decValue cs) else none

/-- Parse `YYYY-MM-DD` into a day count from the epoch. -/
def parseCivilDate (cs : List Char) : Option Int :=
  match splitOnChar '-' cs with
  | [ys, ms, ds] =>
    match fixedNat 4 ys, fixedNat 2 ms, fixedNat 2 ds with
    | some y, some m, some d =>
      if 1 ≤ m ∧ m ≤ 12 ∧ 1 ≤ d ∧ d ≤ daysInMonth y m then
        some (daysFromCivil y m d)
      else none
    | _, _, _ => none
  | _ => none

/-- Parse `HH:MM`, `HH:MM:SS` or `HH:MM:SS.sss` into milliseconds past
midnight. -/
def parseTimeOfDay (cs : List Char) : Option Nat :=
  let second : List Char → Option Nat := fun ss =>
    match splitOnChar '.' ss with
    | [whole] =>
      match fixedNat 2 whole with
      | some s => if s ≤ 59 then some (s * 1000) else none
      | none => none
    | [whole, frac] =>
      match fixedNat 2 whole, fixedNat 3 frac with
      | some s, some ms => if s ≤ 59 then some (s * 1000 + ms) else none
      | _, _ => none
    | _ => none
  match splitOnChar ':' cs with
  | [hs, ms] =>
    match fixedNat 2 hs, fixedNat 2 ms with
    | some h, some mi => if h ≤ 23 ∧ mi ≤ 59 then some ((h * 60 + mi) * 60000) else none
    | _, _ => none
  | [hs, ms, ss] =>
    match fixedNat 2 hs, fixedNat 2 ms, second ss with
    | some h, some mi, some sms =>
      if h ≤ 23 ∧ mi ≤ 59 then some ((h * 60 + mi) * 60000 + sms) else none
    | _, _, _ => none
  | _ => none

/-- Model of `new Date(s).getTime()` on the ISO-8601 subset described
above; `none` stands for `NaN` (an "Invalid Date"). -/
def jsDateParse (s : String) : Option Int :=
  match splitOnChar 'T' s.data with
  | [d] => (parseCivilDate d).map (fun days => days * 86400000)
  | [d, tut] =>
    match tut.reverse with
    | 'Z' :: revRest =>
      match parseCivilDate d, parseTimeOfDay revRest.reverse with
      | some days, some ms => some (days * 86400000 + (ms : Int))
      | _, _ => none
    | _ => none
  | _ => none

/-! ## The data model -/

/-- An article record as defined in `app/types/spaceflight.ts`. -/
structure SpaceflightArticle where
  id : Int
  title : String
  summary : String
  image_url : String
  news_site : String
  published_at : String
  url : String
deriving DecidableEq, Repr

/-- The `SortBy` union type of `app/types/spaceflight.ts`. -/
inductive SortBy where
  | title
  | date
deriving DecidableEq, Repr

/-! ## `Array.prototype.sort` model

`Array.prototype.sort(comparefn)` is specified to be a stable,
implementation-defined sort; when `comparefn` returns `NaN` the runtime
treats the comparison as `+0` (ES2023 `CompareArrayElements`).  The model
below is the binary/linear insertion sort used by the de-facto runtime
(TimSort's insertion pass): elements are taken left to right and each is
moved left past exactly those already-placed predecessors `y` — examined
right to left — with `comparefn(y, x) > 0`.  For a consistent comparator
this agrees with every stable sort. -/

/-- Insert `x` into an accumulator kept in REVERSE order (rightmost
element first): `x` moves past exactly the elements `y` with
`c y x > 0`. -/
def sortInsert (c : α → α → Int) (x : α) : List α → List α
  | [] => [x]
  | y :: ys => if 0 < c y x then y :: sortInsert c x ys else x :: y :: ys

/-- Model of `Array.prototype.sort(c)` (stable; see above). -/
def jsSortBy (c : α → α → Int) (l : List α) : List α :=
  (l.foldl (fun acc x => sortInsert c x acc) []).reverse

/-- The `"date"` comparator of both `sortArticles` implementations:
`new Date(b.published_at).getTime() - new Date(a.published_at).getTime()`.
An unparseable timestamp makes `getTime()` return `NaN`, `NaN`
arithmetic propagates, and the sort driver coerces a `NaN` comparator
result to `+0`; hence any comparison involving an unparseable timestamp
is modelled as `0`. -/
def dateCompare (a b : SpaceflightArticle) : Int :=
  match jsDateParse b.published_at, jsDateParse a.published_at with
  | some tb, some ta => tb - ta
  | _, _ => 0

/-- The parsed timestamp of an article, defaulting to the epoch;
under a "every timestamp parses" hypothesis this is exactly
`new Date(a.published_at).getTime()`. -/
def dateKey (a : SpaceflightArticle) : Int :=
  (jsDateParse a.published_at).getD 0

/-- Lexicographic order on character lists by code point. -/
def lexLess : List Char → List Char → Bool
  | [], [] => false
  | [], _ :: _ => true
  | _ :: _, [] => false
  | a :: as, b :: bs =>
    if a.toNat < b.toNat then true
    else if b.toNat < a.toNat then false
    else lexLess as bs

/-- The `"title"` comparator: `a.title.localeCompare(b.title, ...)`.
The `en` collation is modelled, for the ASCII data of this repository,
as a case-insensitive lexicographic comparison (collation subtleties
beyond case folding are not exercised by any claim). -/
def titleCompare (a b : SpaceflightArticle) : Int :=
  if lexLess (jsToLower a.title).data (jsToLower b.title).data then -1
  else if lexLess (jsToLower b.title).data (jsToLower a.title).data then 1
  else 0

/-! ## Query/transform utilities, broad variant
(`app/utils/article-utils.ts`) -/

namespace ArticleUtils

/-- `formatPublishedDate` of `article-utils.ts`: long-form `en-US` date
(`"January 15, 2024"`), or the sentinel on an unparseable timestamp.
(`toLocaleDateString` renders in the host zone; the model renders the
UTC calendar date, which is what the repository's server environment
produces.) -/
def formatPublishedDate (dateString : String) : String :=
  match jsDateParse dateString with
  | none => "Unknown date"
  | some t =>
    match civilFromDays (t / 86400000) with
    | (y, m, d) => monthName m ++ " " ++ toString d ++ ", " ++ toString y
where
  /-- `en-US` month names as used by `toLocaleDateString`. -/
  monthName : Nat → String
    | 1 => "January"
    | 2 => "February"
    | 3 => "March"
    | 4 => "April"
    | 5 => "May"
    | 6 => "June"
    | 7 => "July"
    | 8 => "August"
    | 9 => "September"
    | 10 => "October"
    | 11 => "November"
    | 12 => "December"
    | _ => ""

/-- `formatRelativeTime` of `article-utils.ts`.  The implicit
`new Date()` ("now") is passed explicitly as a millisecond timestamp.
`Math.floor` of a division by a positive constant is integer floor
division. -/
def formatRelativeTime (dateString : String) (nowMs : Int) : String :=
  match jsDateParse dateString with
  | none => "Unknown date"
  | some t =>
    let diffInMs := nowMs - t
    let diffInDays := diffInMs / 86400000
    if diffInDays = 0 then
      let diffInHours := diffInMs / 3600000
      if diffInHours = 0 then
        let diffInMinutes := diffInMs / 60000
        if diffInMinutes ≤ 1 then "Just now"
        else toString diffInMinutes ++ " minutes ago"
      else if diffInHours = 1 then "1 hour ago"
      else toString diffInHours ++ " hours ago"
    else if diffInDays = 1 then "Yesterday"
    else if diffInDays < 7 then toString diffInDays ++ " days ago"
    else if diffInDays < 30 then
      let weeks := diffInDays / 7
      if weeks = 1 then "1 week ago" else toString weeks ++ " weeks ago"
    else formatPublishedDate dateString

/-- `truncateText` of `article-utils.ts`: over-long text is cut at
`maxLength` characters, `.trim()`-ed, and suffixed with three dots.
The `maxLength` argument is modelled as a natural number (every call
site passes a non-negative literal). -/
def truncateText (text : String) (maxLength : Nat) : String :=
  if text.length ≤ maxLength then text
  else jsTrim (jsSlice0 text maxLength) ++ "..."

/-- `filterArticlesBySearch` of `article-utils.ts`: blank search terms
return the list unchanged; otherwise case-insensitive substring match
against title, summary and news-site. -/
def filterArticlesBySearch (articles : List SpaceflightArticle) (searchTerm : String) :
    List SpaceflightArticle :=
  if jsTrim searchTerm = "" then articles
  else
    let normalizedSearch := jsTrim (jsToLower searchTerm)
    articles.filter (fun article =>
      jsIncludes (jsToLower article.title) normalizedSearch
        || jsIncludes (jsToLower article.summary) normalizedSearch
        || jsIncludes (jsToLower article.news_site) normalizedSearch)

/-- `sortArticles` of `article-utils.ts` (the source copies the array
and sorts the copy in place; the model returns the sorted list). -/
def sortArticles (articles : List SpaceflightArticle) (sortBy : SortBy) :
    List SpaceflightArticle :=
  match sortBy with
  | .title => jsSortBy titleCompare articles
  | .date => jsSortBy dateCompare articles

end ArticleUtils

/-! ## WHATWG URL model (what `new URL(...)` exposes to `extractDomain`)

Restricted to what the source exercises: an input parses only when it
starts with a `scheme:`; for the special schemes `http`/`https` the
authority must follow as `//host` with a non-empty host, which is
ASCII-lowercased and ends at the first `/`, `?`, `#` or `:` (ports are
dropped from `hostname`; credentials and IPv6 brackets are not
modelled); any other scheme yields an opaque URL with an empty
`hostname`. -/

structure JsUrl where
  protocol : String
  hostname : String
deriving DecidableEq, Repr

/-- Characters permitted in a scheme after its initial letter. -/
def schemeChar (c : Char) : Bool :=
  ('a' ≤ c && c ≤ 'z') || ('A' ≤ c && c ≤ 'Z') || decDigit c || c = '+' || c = '-' || c = '.'

/-- Characters that terminate the host portion of an authority. -/
def hostEnd (c : Char) : Bool :=
  c = '/' || c = '?' || c = '#' || c = ':'

/-- Model of `new URL(s)`: `none` models the constructor throwing. -/
def jsUrlParse (s : String) : Option JsUrl :=
  match s.data with
  | [] => none
  | c :: t =>
    if ('a' ≤ c ∧ c ≤ 'z') ∨ ('A' ≤ c ∧ c ≤ 'Z') then
      let schemeChars := c :: t.takeWhile schemeChar
      match (c :: t).drop schemeChars.length with
      | ':' :: afterColon =>
        let scheme := String.mk (schemeChars.map asciiLower)
        if scheme = "http" ∨ scheme = "https" then
          match afterColon with
          | '/' :: '/' :: auth =>
            let host := auth.takeWhile (fun ch => !hostEnd ch)
            if host.isEmpty then none
            else some ⟨scheme ++ ":", String.mk (host.map asciiLower)⟩
          | _ => none
        else some ⟨scheme ++ ":", ""⟩
      | _ => none
    else none

/-- `extractDomain` of `article-utils.ts`:
`new URL(url).hostname.replace("www.", "")`, with the sentinel on a
parse failure. -/
def ArticleUtils.extractDomain (url : String) : String :=
  match jsUrlParse url with
  | some parsedUrl => jsReplaceFirst parsedUrl.hostname "www." ""
  | none => "Unknown source"

/-! ## Query/transform utilities, title-only variant
(`app/utils/index.ts`) -/

namespace Utils

/-- `filterArticlesBySearch` of `index.ts`: blank search terms return
the list unchanged; otherwise case-insensitive substring match against
the title only. -/
def filterArticlesBySearch (articles : List SpaceflightArticle) (searchTerm : String) :
    List SpaceflightArticle :=
  if jsTrim searchTerm = "" then articles
  else
    let lowercaseSearch := jsToLower (jsTrim searchTerm)
    articles.filter (fun article => jsIncludes (jsToLower article.title) lowercaseSearch)

/-- `sortArticles` of `index.ts`; its `"date"` branch is the same
comparator as the broad variant's. -/
def sortArticles (articles : List SpaceflightArticle) (sortBy : SortBy) :
    List SpaceflightArticle :=
  match sortBy with
  | .title => jsSortBy titleCompare articles
  | .date => jsSortBy dateCompare articles

/-- `truncateText` of `index.ts` (same code as the broad variant's). -/
def truncateText (text : String) (maxLength : Nat) : String :=
  if text.length ≤ maxLength then text
  else jsTrim (jsSlice0 text maxLength) ++ "..."

end Utils

/-! ## API client (`app/services/spaceflight-api.ts`): `makeRequest` -/

/-- The `SpaceflightApiError` payload: message plus optional numeric
status and machine code. -/
structure SpaceflightApiError where
  message : String
  status : Option Int
  code : Option String
deriving DecidableEq, Repr

/-- What the runtime hands back for one `fetch(url, ...)` call raced
against the 10-second abort timer. -/
inductive FetchOutcome where
  /-- `fetch` resolved with an HTTP response of this status and status
  text (`response.ok` is derived: status in the range 200–299). -/
  | response (status : Int) (statusText : String)
  /-- `fetch` rejected with a JavaScript `Error` of this `name` and
  `message`; the abort fired by the timeout surfaces as an error named
  `AbortError`, a transport failure (DNS, connection refused, ...) as a
  `TypeError`. -/
  | failure (name message : String)
  /-- `fetch` rejected with a value that is not an `Error`. -/
  | nonErrorThrow

/-- The transport-level view of a `Response` that `makeRequest` returns. -/
structure JsResponse where
  status : Int
  statusText : String
deriving DecidableEq, Repr

/-- `makeRequest` of `spaceflight-api.ts`, as a function of the fetch
outcome: a 2xx response is passed through; every failure is normalised
to a `SpaceflightApiError`. -/
def makeRequest : FetchOutcome → Except SpaceflightApiError JsResponse
  | .response status statusText =>
    if 200 ≤ status ∧ status ≤ 299 then .ok ⟨status, statusText⟩
    else .error ⟨"HTTP error! status: " ++ toString status, some status, some statusText⟩
  | .failure name message =>
    if name = "AbortError" then .error ⟨"Request timeout", some 408, some "TIMEOUT"⟩
    else .error ⟨"Network error: " ++ message, some 0, some "NETWORK_ERROR"⟩
  | .nonErrorThrow =>
    .error ⟨"Unknown error occurred", some 0, some "UNKNOWN_ERROR"⟩

/-! ## Page data loader (`app/routes/_index.tsx`) -/

/-- What the loader's `catch` block can receive from
`fetchLatestArticles`. -/
inductive LoaderFailure where
  /-- a `SpaceflightApiError` (the client's normalised failure). -/
  | apiError (message : String) (status : Option Int) (code : Option String)
  /-- some other JavaScript `Error`. -/
  | jsError (message : String)
  /-- a thrown value that is not an `Error`. -/
  | nonError
deriving DecidableEq, Repr

/-- The `meta` block of the loader envelope. -/
structure LoaderMeta where
  total : Nat
  hasMore : Bool
  loadedAt : String
deriving DecidableEq, Repr

/-- The `ArticlesLoaderData` envelope of `app/types/spaceflight.ts`. -/
structure ArticlesLoaderData where
  articles : List SpaceflightArticle
  error : Option String
  meta : LoaderMeta
deriving DecidableEq, Repr

/-- The observable parts of the `Response` the loader builds: HTTP
status, the `Cache-Control` header, the optional `Retry-After` header,
and the JSON body. -/
structure LoaderResponse where
  status : Int
  cacheControl : String
  retryAfter : Option Nat
  body : ArticlesLoaderData
deriving DecidableEq, Repr

/-- The loader's limit computation
`Math.min(parseInt(url.searchParams.get("limit") || "20"), 50)`.
`none` as argument models an absent parameter (`searchParams.get`
returning `null`); an empty string is falsy, so `"20"` is parsed in
both cases.  `none` as result models `NaN`, which `parseInt` produces
on an unparseable non-empty string and which `Math.min` propagates. -/
def resolveLimit (limitParam : Option String) : Option Int :=
  let raw := match limitParam with
    | none => "20"
    | some s => if s = "" then "20" else s
  (jsParseInt raw).map (fun v => min v 50)

/-- The message the catch block extracts from a failure. -/
def failureMessage : LoaderFailure → String
  | .apiError m _ _ => m
  | .jsError m => m
  | .nonError => "Failed to load articles"

/-- The optional status carried by a failure (present only on a
`SpaceflightApiError` that has one). -/
def failureStatus : LoaderFailure → Option Int
  | .apiError _ st _ => st
  | _ => none

/-- The loader body after the limit has been resolved and the fetch has
settled: success and failure each produce a full envelope, status and
headers.  On failure, `statusCode = error.status || 500` (so an absent
status, a non-`SpaceflightApiError` failure, and the falsy status `0`
all fall back to 500), a 429/503 status adds `Retry-After: 60`, and the
response status is 500 for `statusCode >= 500` and 200 otherwise. -/
def loaderCore (limit : Option Int) (result : Except LoaderFailure (List SpaceflightArticle))
    (loadedAt : String) : LoaderResponse :=
  match result with
  | .ok articles =>
    ⟨200, "public, max-age=300, stale-while-revalidate=600", none,
      ⟨articles, none, ⟨articles.length, limit == some ((articles.length : Nat) : Int), loadedAt⟩⟩⟩
  | .error e =>
    let errorMessage := failureMessage e
    let statusCode : Int := match failureStatus e with
      | some s => if s = 0 then 500 else s
      | none => 500
    let retryAfter : Option Nat := match failureStatus e with
      | some 429 => some 60
      | some 503 => some 60
      | _ => none
    ⟨if 500 ≤ statusCode then 500 else 200,
      "no-cache, no-store, must-revalidate", retryAfter,
      ⟨[], some errorMessage, ⟨0, false, loadedAt⟩⟩⟩

/-- The `loader` of `app/routes/_index.tsx` as a function of the request
(its `limit` parameter), the latest-articles operation (passed as a
function so that the value the loader hands it is observable), and the
`loadedAt` timestamp. -/
def loader (limitParam : Option String)
    (fetchLatestArticles : Option Int → Except LoaderFailure (List SpaceflightArticle))
    (loadedAt : String) : LoaderResponse :=
  loaderCore (resolveLimit limitParam) (fetchLatestArticles (resolveLimit limitParam)) loadedAt

/-! ## Specification-side definitions

The definitions below are written from the WORDING of the specification
and of the claims (not from the source); the theorems compare the
source-derived functions above against them. -/

/-- Spec wording for the envelope invariant (§3 of the specification):
`meta.total` equals `articles.length`; when `error` is populated the
articles list is empty, the total is zero and `hasMore` is false; when
it is absent `hasMore` holds exactly when the returned count equals the
requested limit. -/
def envelopeInvariant (limit : Option Int) (d : ArticlesLoaderData) : Prop :=
  d.meta.total = d.articles.length ∧
  (match d.error with
   | some _ => d.articles = [] ∧ d.meta.total = 0 ∧ d.meta.hasMore = false
   | none => d.meta.hasMore = (limit == some ((d.articles.length : Nat) : Int)))

/-- Spec wording for the failure status mapping (§4.3): 500 when the
failure's status is at least 500, is absent, or is the network
sentinel 0; 200 when it is a client-side 4xx; `none` where the claim
says nothing. -/
def claimedFailureStatus : Option Int → Option Int
  | none => some 500
  | some s =>
    if 500 ≤ s then some 500
    else if 400 ≤ s then some 200
    else if s = 0 then some 500
    else none

/-- Removal of the first occurrence of a pattern, written spec-side as
a split: everything before the first occurrence, then everything after
it. -/
def stripFirst (pat : String) (s : String) : String :=
  String.mk (go pat.data s.data)
where
  go (pat : List Char) : List Char → List Char
    | [] => []
    | c :: t => if pat.isPrefixOf (c :: t) then (c :: t).drop pat.length else c :: go pat t

/-- The claim's reading of `extractDomain`: the host with a LEADING
`"www."` stripped. -/
def leadingWwwStripped (host : String) : String :=
  if "www.".data.isPrefixOf host.data then String.mk (host.data.drop 4) else host

/-- Spec wording for the relative-time buckets, amended only where the
counterexample forces it: "Just now" extends to elapsed times of up to
two minutes (the code compares `diffInMinutes <= 1`), the remaining
buckets are as the specification lists them. -/
def relativeBucketSpec (dateString : String) (d : Int) : String :=
  if d < 120000 then "Just now"
  else if d < 3600000 then toString (d / 60000) ++ " minutes ago"
  else if d < 7200000 then "1 hour ago"
  else if d < 86400000 then toString (d / 3600000) ++ " hours ago"
  else if d < 172800000 then "Yesterday"
  else if d < 604800000 then toString (d / 86400000) ++ " days ago"
  else if d < 1209600000 then "1 week ago"
  else if d < 2592000000 then toString (d / 86400000 / 7) ++ " weeks ago"
  else ArticleUtils.formatPublishedDate dateString

/-- The claim's ORIGINAL reading of the first bucket: "Just now" only
below one minute, every other bucket as in `relativeBucketSpec`. -/
def relativeBucketClaim (dateString : String) (d : Int) : String :=
  if d < 60000 then "Just now"
  else if d < 3600000 then toString (d / 60000) ++ " minutes ago"
  else relativeBucketSpec dateString d

/-- Right-side-only trimming, as the claim for `truncateText` reads. -/
def rightTrimOnly (s : String) : String :=
  String.mk ((s.data.reverse.dropWhile jsWhitespaceChar).reverse)

/-- Whitespace removal from both ends written spec-side in the opposite
order to `jsTrim`: trailing whitespace first, then leading. -/
def trimBothSpec (s : String) : String :=
  String.mk (((s.data.reverse.dropWhile jsWhitespaceChar).reverse).dropWhile jsWhitespaceChar)

/-! ## Helper lemmas -/

theorem sortInsert_mem (c : α → α → Int) (x a : α) (l : List α)
    (h : a ∈ sortInsert c x l) : a = x ∨ a ∈ l := by
  induction l with
  | nil =>
    simp [sortInsert] at h
    exact Or.inl h
  | cons y ys ih =>
    simp only [sortInsert] at h
    split at h
    · rcases List.mem_cons.mp h with h' | h'
      · exact Or.inr (h' ▸ List.mem_cons_self _ _)
      · rcases ih h' with h'' | h''
        · exact Or.inl h''
        · exact Or.inr (List.mem_cons_of_mem _ h'')
    · rcases List.mem_cons.mp h with h' | h'
      · exact Or.inl h'
      · exact Or.inr h'

theorem sortInsert_pairwise (c : α → α → Int) (x : α) (l : List α)
    (hanti : ∀ y ∈ l, 0 < c y x → c x y ≤ 0)
    (htrans : ∀ z ∈ l, ∀ y ∈ l, c z y ≤ 0 → c y x ≤ 0 → c z x ≤ 0)
    (hl : l.Pairwise (fun a b => c b a ≤ 0)) :
    (sortInsert c x l).Pairwise (fun a b => c b a ≤ 0) := by
  induction l with
  | nil => simp [sortInsert]
  | cons y ys ih =>
    rw [List.pairwise_cons] at hl
    obtain ⟨hy, hys⟩ := hl
    simp only [sortInsert]
    split
    case isTrue hgt =>
      rw [List.pairwise_cons]
      refine ⟨?_, ?_⟩
      · intro b hb
        rcases sortInsert_mem c x b ys hb with h' | h'
        · exact h' ▸ hanti y (List.mem_cons_self _ _) hgt
        · exact hy b h'
      · exact ih (fun y' hy' => hanti y' (List.mem_cons_of_mem _ hy'))
          (fun z hz y' hy' =>
            htrans z (List.mem_cons_of_mem _ hz) y' (List.mem_cons_of_mem _ hy'))
          hys
    case isFalse hng =>
      rw [List.pairwise_cons]
      refine ⟨?_, List.pairwise_cons.mpr ⟨hy, hys⟩⟩
      intro b hb
      rcases List.mem_cons.mp hb with h' | h'
      · subst h'
        omega
      · exact htrans b (List.mem_cons_of_mem _ h') y (List.mem_cons_self _ _)
          (hy b h') (by omega)

theorem foldl_sortInsert_mem (c : α → α → Int) (a : α) (todo : List α) :
    ∀ acc : List α,
      a ∈ todo.foldl (fun acc x => sortInsert c x acc) acc → a ∈ todo ∨ a ∈ acc := by
  induction todo with
  | nil =>
    intro acc h
    exact Or.inr h
  | cons x todo ih =>
    intro acc h
    simp only [List.foldl_cons] at h
    rcases ih (sortInsert c x acc) h with h' | h'
    · exact Or.inl (List.mem_cons_of_mem _ h')
    · rcases sortInsert_mem c x a acc h' with h'' | h''
      · exact Or.inl (h'' ▸ List.mem_cons_self _ _)
      · exact Or.inr h''

theorem foldl_sortInsert_pairwise (c : α → α → Int) (P : α → Prop)
    (hanti : ∀ a b, P a → P b → 0 < c a b → c b a ≤ 0)
    (htrans : ∀ a b d, P a → P b → P d → c a b ≤ 0 → c b d ≤ 0 → c a d ≤ 0)
    (todo : List α) :
    ∀ acc : List α, (∀ a ∈ todo, P a) → (∀ a ∈ acc, P a) →
      acc.Pairwise (fun a b => c b a ≤ 0) →
      (todo.foldl (fun acc x => sortInsert c x acc) acc).Pairwise (fun a b => c b a ≤ 0) := by
  induction todo with
  | nil =>
    intro acc _ _ hacc
    exact hacc
  | cons x todo ih =>
    intro acc htodo haccP hacc
    simp only [List.foldl_cons]
    have hxP : P x := htodo x (List.mem_cons_self _ _)
    apply ih (sortInsert c x acc) (fun a ha => htodo a (List.mem_cons_of_mem _ ha))
    · intro a ha
      rcases sortInsert_mem c x a acc ha with h' | h'
      · exact h' ▸ hxP
      · exact haccP a h'
    · apply sortInsert_pairwise
      · intro y hy hgt
        exact hanti y x (haccP y hy) hxP hgt
      · intro z hz y hy h1 h2
        exact htrans z y x (haccP z hz) (haccP y hy) hxP h1 h2
      · exact hacc

theorem jsSortBy_mem (c : α → α → Int) (a : α) (l : List α)
    (h : a ∈ jsSortBy c l) : a ∈ l := by
  unfold jsSortBy at h
  rw [List.mem_reverse] at h
  rcases foldl_sortInsert_mem c a l [] h with h' | h'
  · exact h'
  · simp at h'

theorem jsSortBy_pairwise (c : α → α → Int) (P : α → Prop)
    (hanti : ∀ a b, P a → P b → 0 < c a b → c b a ≤ 0)
    (htrans : ∀ a b d, P a → P b → P d → c a b ≤ 0 → c b d ≤ 0 → c a d ≤ 0)
    (l : List α) (hl : ∀ a ∈ l, P a) :
    (jsSortBy c l).Pairwise (fun a b => c a b ≤ 0) := by
  unfold jsSortBy
  rw [List.pairwise_reverse]
  exact foldl_sortInsert_pairwise c P hanti htrans l [] hl (by simp) (by simp)

theorem dateCompare_eq_keys (a b : SpaceflightArticle)
    (ha : (jsDateParse a.published_at).isSome)
    (hb : (jsDateParse b.published_at).isSome) :
    dateCompare a b = dateKey b - dateKey a := by
  unfold dateCompare dateKey
  cases hpa : jsDateParse a.published_at with
  | none =>
    rw [hpa] at ha
    simp at ha
  | some ta =>
    cases hpb : jsDateParse b.published_at with
    | none =>
      rw [hpb] at hb
      simp at hb
    | some tb => simp

theorem replaceFirst_empty_strip (pat l : List Char) :
    replaceFirstList pat [] l = stripFirst.go pat l := by
  induction l with
  | nil => simp [replaceFirstList, stripFirst.go]
  | cons c t ih =>
    simp only [replaceFirstList, stripFirst.go]
    split
    · simp
    · rw [ih]

theorem dropWhile_reverse_comm (p : Char → Bool) (l : List Char) :
    ((l.dropWhile p).reverse.dropWhile p).reverse =
      ((l.reverse.dropWhile p).reverse).dropWhile p := by
  induction l with
  | nil => rfl
  | cons c t ih =>
    by_cases hp : p c <;> cases hq : t.reverse.dropWhile p <;>
      simp [hp, hq, ih, List.dropWhile_append, List.reverse_append]

theorem jsTrim_eq_trimBothSpec (s : String) : jsTrim s = trimBothSpec s := by
  unfold jsTrim trimBothSpec
  rw [dropWhile_reverse_comm]

/-! ## Claim theorems -/

/-- C4: every failure outcome of `makeRequest` is one typed error
discriminated by status and code: the timeout's abort gives status 408
and code `TIMEOUT`; a non-2xx HTTP response gives that numeric status
with the server's status text as the code; any other `Error` rejection
of the transport gives status 0 and code `NETWORK_ERROR` wrapping the
underlying message. -/
theorem makeRequest_error_taxonomy (status : Int) (statusText name message : String)
    (hstatus : ¬(200 ≤ status ∧ status ≤ 299)) (hname : name ≠ "AbortError") :
    makeRequest (.failure "AbortError" message) =
      .error ⟨"Request timeout", some 408, some "TIMEOUT"⟩ ∧
    makeRequest (.response status statusText) =
      .error ⟨"HTTP error! status: " ++ toString status, some status, some statusText⟩ ∧
    makeRequest (.failure name message) =
      .error ⟨"Network error: " ++ message, some 0, some "NETWORK_ERROR"⟩ := by
  refine ⟨by simp [makeRequest], ?_, ?_⟩
  · simp [makeRequest, hstatus]
  · simp [makeRequest, hname]

/-- C4 witness: a 404 response and a `TypeError` rejection. -/
theorem makeRequest_error_taxonomy_witness :
    (¬((200 : Int) ≤ 404 ∧ (404 : Int) ≤ 299)) ∧
    ("TypeError" : String) ≠ "AbortError" ∧
    (makeRequest (.failure "AbortError" "The operation was aborted") =
      .error ⟨"Request timeout", some 408, some "TIMEOUT"⟩ ∧
    makeRequest (.response 404 "Not Found") =
      .error ⟨"HTTP error! status: " ++ toString (404 : Int), some 404, some "Not Found"⟩ ∧
    makeRequest (.failure "TypeError" "fetch failed") =
      .error ⟨"Network error: " ++ "fetch failed", some 0, some "NETWORK_ERROR"⟩) :=
  ⟨by decide, by decide,
    makeRequest_error_taxonomy 404 "Not Found" "TypeError" "fetch failed"
      (by decide) (by decide)⟩

/-- C5: a search term whose trimmed form is empty leaves the article
list unchanged, in both the broad and the title-only variant of
`filterArticlesBySearch`. -/
theorem filterArticlesBySearch_blank_identity (articles : List SpaceflightArticle)
    (searchTerm : String) (h : jsTrim searchTerm = "") :
    ArticleUtils.filterArticlesBySearch articles searchTerm = articles ∧
    Utils.filterArticlesBySearch articles searchTerm = articles := by
  unfold ArticleUtils.filterArticlesBySearch Utils.filterArticlesBySearch
  rw [if_pos h, if_pos h]
  exact ⟨rfl, rfl⟩

/-- C5 witness: a whitespace-only search term over a one-article list. -/
theorem filterArticlesBySearch_blank_identity_witness :
    jsTrim "   " = "" ∧
    (ArticleUtils.filterArticlesBySearch
        [⟨1, "SpaceX Launches Starship", "s", "i", "SpaceNews", "2024-01-01T00:00:00Z", "u"⟩]
        "   " =
      [⟨1, "SpaceX Launches Starship", "s", "i", "SpaceNews", "2024-01-01T00:00:00Z", "u"⟩] ∧
    Utils.filterArticlesBySearch
        [⟨1, "SpaceX Launches Starship", "s", "i", "SpaceNews", "2024-01-01T00:00:00Z", "u"⟩]
        "   " =
      [⟨1, "SpaceX Launches Starship", "s", "i", "SpaceNews", "2024-01-01T00:00:00Z", "u"⟩]) :=
  ⟨by decide,
    filterArticlesBySearch_blank_identity
      [⟨1, "SpaceX Launches Starship", "s", "i", "SpaceNews", "2024-01-01T00:00:00Z", "u"⟩]
      "   " (by decide)⟩

/-- C10: for every search term, both variants of
`filterArticlesBySearch` return an order-preserving sublist of the
input (no reordering, no duplication, no foreign elements). -/
theorem filterArticlesBySearch_sublist (articles : List SpaceflightArticle)
    (searchTerm : String) :
    List.Sublist (ArticleUtils.filterArticlesBySearch articles searchTerm) articles ∧
    List.Sublist (Utils.filterArticlesBySearch articles searchTerm) articles := by
  constructor
  · unfold ArticleUtils.filterArticlesBySearch
    split
    · exact List.Sublist.refl _
    · exact List.filter_sublist _
  · unfold Utils.filterArticlesBySearch
    split
    · exact List.Sublist.refl _
    · exact List.filter_sublist _

/-- C7 (amended): over-long text is cut to its first `maxLength`
characters and trimmed of BOTH leading and trailing whitespace — not
right-trimmed only, since the code calls `.trim()` — before the
ellipsis is appended; text within the bound is returned unchanged.
Both utility modules implement the identical function. -/
theorem truncateText_spec (text : String) (maxLength : Nat) :
    ArticleUtils.truncateText text maxLength =
      (if text.length ≤ maxLength then text
       else trimBothSpec (jsSlice0 text maxLength) ++ "...") ∧
    Utils.truncateText text maxLength = ArticleUtils.truncateText text maxLength := by
  refine ⟨?_, rfl⟩
  by_cases h : text.length ≤ maxLength
  · simp [ArticleUtils.truncateText, h]
  · simp [ArticleUtils.truncateText, h, jsTrim_eq_trimBothSpec]

/-- C7 counterexample: on `" ab"` with bound 2 the code yields
`"a..."` — the leading space is removed by `.trim()` — while a
right-trim-only reading of the claim predicts `" a..."`. -/
theorem truncateText_counterexample :
    ArticleUtils.truncateText " ab" 2 = "a..." ∧
    rightTrimOnly (jsSlice0 " ab" 2) ++ "..." = " a..." ∧
    (" a..." : String) ≠ "a..." := by decide

/-- C9 (amended): `extractDomain` removes the FIRST occurrence of the
substring `"www."` from the parsed URL's hostname (which is the leading
one whenever the host starts with `"www."`, as in the specification's
scenario), and returns the sentinel when the URL fails to parse. -/
theorem extractDomain_spec (url : String) :
    (ArticleUtils.extractDomain url =
      match jsUrlParse url with
      | none => "Unknown source"
      | some u => stripFirst "www." u.hostname) ∧
    ArticleUtils.extractDomain "https://www.example.com/path" = "example.com" ∧
    ArticleUtils.extractDomain "not-a-url" = "Unknown source" := by
  refine ⟨?_, by decide, by decide⟩
  cases hu : jsUrlParse url with
  | none => simp [ArticleUtils.extractDomain, hu]
  | some u =>
    simp [ArticleUtils.extractDomain, hu, jsReplaceFirst, stripFirst,
      replaceFirst_empty_strip]

/-- C9 counterexample: `"www."` is not anchored at the start of the
host — `String.prototype.replace` deletes its first occurrence anywhere
— so a host `awww.example.com` becomes `aexample.com`, not the
`awww.example.com` a leading-only strip would produce. -/
theorem extractDomain_counterexample :
    ArticleUtils.extractDomain "https://awww.example.com/path" = "aexample.com" ∧
    (jsUrlParse "https://awww.example.com/path").map JsUrl.hostname =
      some "awww.example.com" ∧
    leadingWwwStripped "awww.example.com" = "awww.example.com" ∧
    ("aexample.com" : String) ≠ "awww.example.com" := by decide

/-- C1: when the latest-articles fetch rejects, the loader's HTTP
status follows the claimed mapping — 500 for a failure status of at
least 500, for an absent status (generic failure) and for the network
sentinel 0; 200 for a client-side 4xx — and the envelope body still
carries the failure's message in `error`. -/
theorem loader_failure_status (limitParam : Option String)
    (fetchLatestArticles : Option Int → Except LoaderFailure (List SpaceflightArticle))
    (loadedAt : String) (e : LoaderFailure) (claimed : Int)
    (hfail : fetchLatestArticles (resolveLimit limitParam) = .error e)
    (hclaim : claimedFailureStatus (failureStatus e) = some claimed) :
    (loader limitParam fetchLatestArticles loadedAt).status = claimed ∧
    (loader limitParam fetchLatestArticles loadedAt).body.error =
      some (failureMessage e) := by
  unfold loader loaderCore
  rw [hfail]
  refine ⟨?_, rfl⟩
  cases e with
  | apiError m st cd =>
    cases st with
    | none =>
      simp only [claimedFailureStatus, failureStatus, Option.some.injEq] at hclaim
      simp [failureStatus, ← hclaim]
    | some s =>
      simp only [failureStatus] at hclaim ⊢
      simp only [claimedFailureStatus] at hclaim
      by_cases h5 : 500 ≤ s
      · rw [if_pos h5] at hclaim
        have hc : claimed = 500 := by
          cases hclaim
          rfl
        have h0 : ¬s = 0 := by omega
        simp [hc, h0, h5]
      · rw [if_neg h5] at hclaim
        by_cases h4 : 400 ≤ s
        · rw [if_pos h4] at hclaim
          have hc : claimed = 200 := by
            cases hclaim
            rfl
          have h0 : ¬s = 0 := by omega
          simp [hc, h0, h5]
        · rw [if_neg h4] at hclaim
          by_cases h0 : s = 0
          · rw [if_pos h0] at hclaim
            have hc : claimed = 500 := by
              cases hclaim
              rfl
            simp [hc, h0]
          · rw [if_neg h0] at hclaim
            cases hclaim
  | jsError m =>
    simp only [claimedFailureStatus, failureStatus, Option.some.injEq] at hclaim
    simp [failureStatus, ← hclaim]
  | nonError =>
    simp only [claimedFailureStatus, failureStatus, Option.some.injEq] at hclaim
    simp [failureStatus, ← hclaim]

/-- C1 witness: an upstream 503 failure is answered with HTTP 500 and
the message in the body. -/
theorem loader_failure_status_witness :
    ((fun _ : Option Int =>
        (.error (.apiError "HTTP error! status: 503" (some 503) (some "Service Unavailable")) :
          Except LoaderFailure (List SpaceflightArticle))) (resolveLimit none) =
      .error (.apiError "HTTP error! status: 503" (some 503) (some "Service Unavailable"))) ∧
    claimedFailureStatus
      (failureStatus (.apiError "HTTP error! status: 503" (some 503) (some "Service Unavailable"))) =
      some 500 ∧
    ((loader none
        (fun _ =>
          .error (.apiError "HTTP error! status: 503" (some 503) (some "Service Unavailable")))
        "2024-01-15T10:00:00.000Z").status = 500 ∧
    (loader none
        (fun _ =>
          .error (.apiError "HTTP error! status: 503" (some 503) (some "Service Unavailable")))
        "2024-01-15T10:00:00.000Z").body.error =
      some (failureMessage
        (.apiError "HTTP error! status: 503" (some 503) (some "Service Unavailable")))) :=
  ⟨rfl, by decide,
    loader_failure_status none
      (fun _ =>
        .error (.apiError "HTTP error! status: 503" (some 503) (some "Service Unavailable")))
      "2024-01-15T10:00:00.000Z"
      (.apiError "HTTP error! status: 503" (some 503) (some "Service Unavailable"))
      500 rfl (by decide)⟩

/-- C2 (amended): the loader resolves the `limit` parameter to 20 when
it is absent or the empty string; a present, non-empty, parseable value
is clamped to at most 50 (`limit=100` resolves to 50); a present,
non-empty value that `parseInt` cannot parse resolves to `NaN`
(modelled `none`) — NOT to 20 — and the upstream fetch is invoked with
exactly the resolved value in every case. -/
theorem loader_limit_resolution (s bad : String) (v : Int)
    (fetchLatestArticles : Option Int → Except LoaderFailure (List SpaceflightArticle))
    (loadedAt : String)
    (hs : s ≠ "") (hv : jsParseInt s = some v)
    (hbad : bad ≠ "") (hbadParse : jsParseInt bad = none) :
    resolveLimit none = some 20 ∧
    resolveLimit (some "") = some 20 ∧
    resolveLimit (some s) = some (min v 50) ∧
    resolveLimit (some bad) = none ∧
    resolveLimit (some "100") = some 50 ∧
    (∀ p, loader p fetchLatestArticles loadedAt =
      loaderCore (resolveLimit p) (fetchLatestArticles (resolveLimit p)) loadedAt) := by
  refine ⟨by decide, by decide, ?_, ?_, by decide, fun p => rfl⟩
  · simp [resolveLimit, hs, hv]
  · simp [resolveLimit, hbad, hbadParse]

/-- C2 witness: `limit=100` parses to 100 and is clamped to 50;
`limit=abc` is non-empty and unparseable. -/
theorem loader_limit_resolution_witness :
    ("100" : String) ≠ "" ∧
    jsParseInt "100" = some 100 ∧
    ("abc" : String) ≠ "" ∧
    jsParseInt "abc" = none ∧
    (resolveLimit none = some 20 ∧
    resolveLimit (some "") = some 20 ∧
    resolveLimit (some "100") = some (min (100 : Int) 50) ∧
    resolveLimit (some "abc") = none ∧
    resolveLimit (some "100") = some 50 ∧
    (∀ p, loader p (fun _ => .ok []) "2024-01-15T10:00:00.000Z" =
      loaderCore (resolveLimit p) ((fun _ => .ok []) (resolveLimit p))
        "2024-01-15T10:00:00.000Z")) :=
  ⟨by decide, by decide, by decide, by decide,
    loader_limit_resolution "100" "abc" 100 (fun _ => .ok []) "2024-01-15T10:00:00.000Z"
      (by decide) (by decide) (by decide) (by decide)⟩

/-- C2 counterexample: a present but unparseable `limit` (`"abc"`)
resolves to `NaN`, not to the claimed default 20. -/
theorem resolveLimit_counterexample :
    resolveLimit (some "abc") = none ∧ (none : Option Int) ≠ some 20 := by decide

/-- C3: every envelope the loader produces satisfies the invariant:
`meta.total` equals `articles.length`; when `error` is populated the
article list is empty, the total is 0 and `hasMore` is false; when
`error` is absent `hasMore` holds exactly when the count equals the
resolved limit; and `error` is populated with the failure's message
exactly when the fetch failed. -/
theorem loader_envelope_invariant (limitParam : Option String)
    (fetchLatestArticles : Option Int → Except LoaderFailure (List SpaceflightArticle))
    (loadedAt : String) :
    envelopeInvariant (resolveLimit limitParam)
      ((loader limitParam fetchLatestArticles loadedAt).body) ∧
    (loader limitParam fetchLatestArticles loadedAt).body.error =
      (match fetchLatestArticles (resolveLimit limitParam) with
       | .ok _ => none
       | .error e => some (failureMessage e)) := by
  unfold loader loaderCore envelopeInvariant
  cases hres : fetchLatestArticles (resolveLimit limitParam) with
  | ok articles => simp
  | error e => simp

/-- C6 (amended): whenever every article's `published_at` parses,
`sortArticles(list, "date")` is non-increasing by parsed timestamp
(newest first) in both utility modules.  (An article with an
unparseable timestamp makes the comparator return `NaN`, which the sort
treats as equality, leaving that article — and the ordering across it —
in input position rather than "as if oldest"; see the counterexample.
Input lists are never mutated: the embedding is pure, matching the
source's copy-then-sort.) -/
theorem sortArticles_date_sorted (l : List SpaceflightArticle)
    (h : ∀ a ∈ l, (jsDateParse a.published_at).isSome) :
    (ArticleUtils.sortArticles l .date).Pairwise (fun a b => dateKey b ≤ dateKey a) ∧
    (Utils.sortArticles l .date).Pairwise (fun a b => dateKey b ≤ dateKey a) := by
  have key : (jsSortBy dateCompare l).Pairwise (fun a b => dateKey b ≤ dateKey a) := by
    have hs := jsSortBy_pairwise dateCompare
      (fun a => (jsDateParse a.published_at).isSome = true)
      (fun a b ha hb hgt => by
        rw [dateCompare_eq_keys b a hb ha]
        rw [dateCompare_eq_keys a b ha hb] at hgt
        omega)
      (fun a b d ha hb hd h1 h2 => by
        rw [dateCompare_eq_keys a d ha hd]
        rw [dateCompare_eq_keys a b ha hb] at h1
        rw [dateCompare_eq_keys b d hb hd] at h2
        omega)
      l h
    refine hs.imp_of_mem ?_
    intro a b hma hmb hab
    have ha := h a (jsSortBy_mem _ _ _ hma)
    have hb := h b (jsSortBy_mem _ _ _ hmb)
    rw [dateCompare_eq_keys a b ha hb] at hab
    omega
  exact ⟨key, key⟩

/-- C6 witness: the repository's three-article fixture, every timestamp
parseable. -/
theorem sortArticles_date_sorted_witness :
    (∀ a ∈ [(⟨1, "Zebra Mission Launch", "s", "i", "Space News", "2024-01-15T10:00:00Z", "u"⟩ :
          SpaceflightArticle),
        ⟨2, "Alpha Space Station", "s", "i", "Space Today", "2024-01-20T15:30:00Z", "u"⟩,
        ⟨3, "Beta Rocket Test", "s", "i", "Rocket News", "2024-01-10T08:45:00Z", "u"⟩],
      (jsDateParse a.published_at).isSome) ∧
    ((ArticleUtils.sortArticles
        [⟨1, "Zebra Mission Launch", "s", "i", "Space News", "2024-01-15T10:00:00Z", "u"⟩,
         ⟨2, "Alpha Space Station", "s", "i", "Space Today", "2024-01-20T15:30:00Z", "u"⟩,
         ⟨3, "Beta Rocket Test", "s", "i", "Rocket News", "2024-01-10T08:45:00Z", "u"⟩]
        .date).Pairwise (fun a b => dateKey b ≤ dateKey a) ∧
    (Utils.sortArticles
        [⟨1, "Zebra Mission Launch", "s", "i", "Space News", "2024-01-15T10:00:00Z", "u"⟩,
         ⟨2, "Alpha Space Station", "s", "i", "Space Today", "2024-01-20T15:30:00Z", "u"⟩,
         ⟨3, "Beta Rocket Test", "s", "i", "Rocket News", "2024-01-10T08:45:00Z", "u"⟩]
        .date).Pairwise (fun a b => dateKey b ≤ dateKey a)) :=
  ⟨by decide,
    sortArticles_date_sorted
      [⟨1, "Zebra Mission Launch", "s", "i", "Space News", "2024-01-15T10:00:00Z", "u"⟩,
       ⟨2, "Alpha Space Station", "s", "i", "Space Today", "2024-01-20T15:30:00Z", "u"⟩,
       ⟨3, "Beta Rocket Test", "s", "i", "Rocket News", "2024-01-10T08:45:00Z", "u"⟩]
      (by decide)⟩

/-- C6 counterexample: with an unparseable timestamp in the middle,
every comparison against it returns `NaN` — treated as equality — so
the stable sort leaves the list untouched: an older article stays
before a newer one (the output is not non-increasing) and the
unparseable article is not moved to the oldest end. -/
theorem sortArticles_date_counterexample :
    ArticleUtils.sortArticles
        [⟨1, "Old", "s", "i", "n", "2024-01-10T00:00:00Z", "u"⟩,
         ⟨2, "Bad", "s", "i", "n", "invalid-date", "u"⟩,
         ⟨3, "New", "s", "i", "n", "2024-01-20T00:00:00Z", "u"⟩] .date =
      [⟨1, "Old", "s", "i", "n", "2024-01-10T00:00:00Z", "u"⟩,
       ⟨2, "Bad", "s", "i", "n", "invalid-date", "u"⟩,
       ⟨3, "New", "s", "i", "n", "2024-01-20T00:00:00Z", "u"⟩] ∧
    jsDateParse "invalid-date" = none ∧
    dateKey ⟨1, "Old", "s", "i", "n", "2024-01-10T00:00:00Z", "u"⟩ <
      dateKey ⟨3, "New", "s", "i", "n", "2024-01-20T00:00:00Z", "u"⟩ := by decide

set_option maxHeartbeats 2000000 in
/-- C8 (amended): for a parseable timestamp and a non-negative elapsed
time, `formatRelativeTime` realises the claimed buckets except at the
first boundary: "Just now" covers elapsed times up to TWO minutes (the
code tests `diffInMinutes <= 1`), not only below one minute; all later
buckets — minutes, singular/plural hours, "Yesterday" at exactly one
day, days, singular/plural weeks, and the absolute date from 30 days —
are as claimed, and an unparseable timestamp yields the sentinel
without throwing. -/
theorem formatRelativeTime_buckets (s u : String) (now t : Int)
    (hparse : jsDateParse s = some t) (hpos : 0 ≤ now - t)
    (hu : jsDateParse u = none) :
    ArticleUtils.formatRelativeTime s now = relativeBucketSpec s (now - t) ∧
    ArticleUtils.formatRelativeTime u now = "Unknown date" := by
  refine ⟨?_, by simp [ArticleUtils.formatRelativeTime, hu]⟩
  unfold ArticleUtils.formatRelativeTime relativeBucketSpec
  simp only [hparse]
  set d := now - t with hd
  split_ifs <;> first | omega | rfl

/-- C8 witness: ninety seconds of elapsed time on a parseable
timestamp, and the sentinel on garbage input. -/
theorem formatRelativeTime_buckets_witness :
    jsDateParse "2024-01-15T10:00:00Z" = some 1705312800000 ∧
    (0 : Int) ≤ 1705312890000 - 1705312800000 ∧
    jsDateParse "invalid-date" = none ∧
    (ArticleUtils.formatRelativeTime "2024-01-15T10:00:00Z" 1705312890000 =
      relativeBucketSpec "2024-01-15T10:00:00Z" (1705312890000 - 1705312800000) ∧
    ArticleUtils.formatRelativeTime "invalid-date" 1705312890000 = "Unknown date") :=
  ⟨by decide, by decide, by decide,
    formatRelativeTime_buckets "2024-01-15T10:00:00Z" "invalid-date"
      1705312890000 1705312800000 (by decide) (by decide) (by decide)⟩

/-- C8 counterexample: at exactly one minute of elapsed time the code
still answers "Just now", while the claim's bucket list (`< 1 minute →
"Just now"`, otherwise minutes) predicts "1 minutes ago". -/
theorem formatRelativeTime_counterexample :
    ArticleUtils.formatRelativeTime "2024-01-15T10:00:00Z" 1705312860000 = "Just now" ∧
    relativeBucketClaim "2024-01-15T10:00:00Z" (1705312860000 - 1705312800000) =
      "1 minutes ago" ∧
    ("Just now" : String) ≠ "1 minutes ago" := by decide

end SpaceflightNews
